import Mathlib

/-!
Shallow embedding of `src/students/filip-gjorgjevski-5349/script.js`
(Doctor Who episodes explorer) and verification of its specification.

Conventions used throughout:
* JS strings are Lean `String`s; a possibly-absent (`undefined`/`null`) value
  is an `Option`.
* JS numbers reaching this code come from JSON, so they are finite; they are
  modelled as `Int`.
* Case folding (`toLowerCase`) is modelled character-wise (ASCII).
* `Date` values are modelled by their epoch millisecond value (UTC is used as
  the local time zone); an `Invalid Date` is a distinguished value whose
  `getTime()` is `NaN`.
-/

/-- JS `String.prototype.toLowerCase`, modelled character-wise. -/
def jsToLower (s : String) : String := String.mk (s.data.map Char.toLower)

/-- `startsWithList pat l` holds when `pat` is an initial segment of `l`. -/
def startsWithList : List Char → List Char → Bool
  | [], _ => true
  | _ :: _, [] => false
  | a :: pat, b :: l => a == b && startsWithList pat l

/-- `occursIn pat l` holds when `pat` occurs contiguously inside `l`. -/
def occursIn (pat : List Char) : List Char → Bool
  | [] => pat.isEmpty
  | c :: l => startsWithList pat (c :: l) || occursIn pat l

/-- JS `hay.includes(sub)`: `sub` occurs as a contiguous substring of `hay`. -/
def jsIncludes (hay sub : String) : Bool := occursIn sub.data hay.data

/-- JS `x || dflt` for an optional string: falsy (`undefined`/`null`/`""`)
falls back to the default. -/
def truthyOr (o : Option String) (dflt : String) : String :=
  match o with
  | none => dflt
  | some s => if s = "" then dflt else s

/-- The `doctor` object of an episode record: `{ actor, incarnation }`. -/
structure Doctor where
  actor : Option String := none
  incarnation : Option String := none
deriving DecidableEq

/-- The `companion` object of an episode record: `{ actor, character }`. -/
structure Companion where
  actor : Option String := none
  character : Option String := none
deriving DecidableEq

/-- A JSON value stored under `rank`: a (finite) number or a string.  JSON
cannot encode non-finite numbers, so `typeof rank === 'number'` implies
`isFinite(rank)` for loaded data. -/
inductive RankVal where
  | num (n : Int)
  | str (s : String)
deriving DecidableEq

/-- An episode record.  Every field may be absent.  The `cast` array is
modelled by its length, the only thing the program reads from it. -/
structure Episode where
  rank : Option RankVal := none
  title : Option String := none
  series : Option Int := none
  era : Option String := none
  broadcast_date : Option String := none
  director : Option String := none
  writer : Option String := none
  doctor : Option Doctor := none
  companion : Option Companion := none
  cast : Option Nat := none
deriving DecidableEq

/-- `formatDoctor(d, includeInc = true)`.  `!d?.actor` is true when the object
is missing, the actor is missing, or the actor is the empty string. -/
def formatDoctor (d : Option Doctor) (includeInc : Bool := true) : String :=
  match d with
  | none => "N/A"
  | some doc =>
    match doc.actor with
    | none => "N/A"
    | some a =>
      if a = "" then "N/A"
      else if includeInc then a ++ " (" ++ truthyOr doc.incarnation "N/A" ++ ")"
      else a

/-- `formatCompanion(c, includeChar = true)`, same shape as `formatDoctor`. -/
def formatCompanion (c : Option Companion) (includeChar : Bool := true) : String :=
  match c with
  | none => "N/A"
  | some comp =>
    match comp.actor with
    | none => "N/A"
    | some a =>
      if a = "" then "N/A"
      else if includeChar then a ++ " (" ++ truthyOr comp.character "N/A" ++ ")"
      else a

/-- Days since 1970-01-01 of the civil date `(y, m, d)` with `1 ≤ m ≤ 12`
(Gregorian, proleptic); standard days-from-civil computation done with floor
division so it is valid for every year. -/
def daysFromCivil (y m d : Int) : Int :=
  let yAdj := if m ≤ 2 then y - 1 else y
  let era := yAdj.fdiv 400
  let yoe := yAdj - era * 400
  let mp := (m + 9) % 12
  let doy := (153 * mp + 2).fdiv 5 + d - 1
  let doe := yoe * 365 + yoe.fdiv 4 - yoe.fdiv 100 + doy
  era * 146097 + doe - 719468

/-- Year of the civil date that is `z` days since 1970-01-01 (inverse of
`daysFromCivil`); used to model `Date.prototype.getFullYear`. -/
def civilYearFromDays (z0 : Int) : Int :=
  let z := z0 + 719468
  let era := z.fdiv 146097
  let doe := z - era * 146097
  let yoe := (doe - doe.fdiv 1460 + doe.fdiv 36524 - doe.fdiv 146096).fdiv 365
  let y := yoe + era * 400
  let doy := doe - (365 * yoe + yoe.fdiv 4 - yoe.fdiv 100)
  let mp := (5 * doy + 2).fdiv 153
  let m := if mp < 10 then mp + 3 else mp - 9
  if m ≤ 2 then y + 1 else y

/-- ECMAScript `MakeFullYear`: an integer year in `0..99` is interpreted as
`1900 + year` by the multi-argument `Date` constructor. -/
def makeFullYear (y : Int) : Int := if 0 ≤ y ∧ y ≤ 99 then 1900 + y else y

/-- ECMAScript `MakeDay` for `new Date(year, month, day)` (month is a 0-based
index and, like the day, rolls over when out of range): days since epoch. -/
def jsMakeDay (year month day : Int) : Int :=
  let ym := year * 12 + month
  daysFromCivil (ym.fdiv 12) (ym.emod 12 + 1) 1 + (day - 1)

/-- Epoch milliseconds of `new Date(year, month, day)` (after `MakeFullYear`
has been applied to `year` by the caller). -/
def jsMakeDateMs (year month day : Int) : Int := jsMakeDay year month day * 86400000

/-- A JS `Date` object: its epoch millisecond value, or `Invalid Date`
(whose `getTime()` is `NaN`). -/
inductive JsDate where
  | valid (ms : Int)
  | invalid
deriving DecidableEq

/-- `new Date(y, m, d)` where each argument has already gone through
`ToNumber` (`none` is `NaN`): any `NaN` argument gives an `Invalid Date`,
otherwise `MakeFullYear` applies to the year and the fields roll over. -/
def newDateYMD (y m d : Option Int) : JsDate :=
  match y, m, d with
  | some yv, some mv, some dv => .valid (jsMakeDateMs (makeFullYear yv) mv dv)
  | _, _, _ => .invalid

/-- The numeric value of a decimal digit character. -/
def digitVal (c : Char) : Nat := c.toNat - 48

/-- The natural number denoted by a list of decimal digit characters. -/
def digitsToNat (l : List Char) : Nat := l.foldl (fun acc c => acc * 10 + digitVal c) 0

/-- JS `String.prototype.split(sep)` for a one-character separator, at the
character-list level (`"" → [""]`, adjacent separators give `""` parts). -/
def splitOnChar (sep : Char) : List Char → List (List Char)
  | [] => [[]]
  | c :: cs =>
    if c = sep then [] :: splitOnChar sep cs
    else
      match splitOnChar sep cs with
      | [] => [[c]]
      | h :: t => (c :: h) :: t

/-- JS `ToNumber` on a string (as a character list), restricted to the
optional-sign decimal-integer shapes that reach the `Date` constructor
here; `""` converts to `0`; `none` models `NaN`. -/
def jsToNumber : List Char → Option Int
  | [] => some 0
  | '-' :: rest =>
    if !rest.isEmpty && rest.all (fun c => c.isDigit) then
      some (-(Int.ofNat (digitsToNat rest)))
    else none
  | l =>
    if l.all (fun c => c.isDigit) then some (Int.ofNat (digitsToNat l)) else none

/-- The regex test `/^\d{4}$/.test(s)`. -/
def isFourDigit (s : String) : Bool := s.length == 4 && s.data.all (fun c => c.isDigit)

/-- `normalizeDate(dateStr)`.  The generic fallback `new Date(string)` parser
is taken as the explicit parameter `parse` (its behaviour is
engine-dependent); the `YYYY` and `DD/MM/YYYY` branches are computed here
exactly as the multi-argument `Date` constructor does. -/
def normalizeDate (parse : String → JsDate) (dateStr : Option String) : Option JsDate :=
  match dateStr with
  | none => none
  | some s =>
    if s = "" then none
    else if isFourDigit s then
      some (.valid (jsMakeDateMs (makeFullYear (Int.ofNat (digitsToNat s.data))) 0 1))
    else if jsIncludes s "/" then
      let parts := splitOnChar '/' s.data
      let d := parts[0]?.bind jsToNumber
      let m := parts[1]?.bind jsToNumber
      let y := parts[2]?.bind jsToNumber
      some (newDateYMD y (m.map (fun k => k - 1)) d)
    else
      match parse s with
      | .invalid => none
      | .valid ms => some (.valid ms)

/-- Modelled from the spec: the engine's generic date parsing used by the
fallback branch of `normalizeDate` ("covers ISO `YYYY-MM-DD` and free-text
month/day/year"), restricted here to the ISO calendar-date form; anything
else is an invalid date.  The engine implementation is not in `src/`. -/
def jsDateParse (s : String) : JsDate :=
  match splitOnChar '-' s.data with
  | [y, m, d] =>
    if y.length == 4 && m.length == 2 && d.length == 2 &&
        y.all (fun c => c.isDigit) && m.all (fun c => c.isDigit) &&
        d.all (fun c => c.isDigit) &&
        decide (1 ≤ digitsToNat m) && decide (digitsToNat m ≤ 12) &&
        decide (1 ≤ digitsToNat d) && decide (digitsToNat d ≤ 31) then
      .valid (daysFromCivil (digitsToNat y) (digitsToNat m) (digitsToNat d) * 86400000)
    else .invalid
  | _ => .invalid

/-- `getYear(dateStr)`: the full year of the normalized date, `"N/A"` when it
is `null`, and `"NaN"` when it is an `Invalid Date` (truthy, but its
`getFullYear()` is `NaN`). -/
def getYear (parse : String → JsDate) (dateStr : Option String) : String :=
  match normalizeDate parse dateStr with
  | none => "N/A"
  | some .invalid => "NaN"
  | some (.valid ms) => toString (civilYearFromDays (ms.fdiv 86400000))

/-- The filter predicate of `applyFiltersAndSort`: `filterText` is the
already-lowercased filter input. -/
def matchesFilter (ep : Episode) (filterText : String) : Bool :=
  let title := match ep.title with | some t => jsToLower t | none => ""
  let doctor := jsToLower (formatDoctor ep.doctor false)
  let companion := jsToLower (formatCompanion ep.companion false)
  let writer := match ep.writer with | some w => jsToLower w | none => ""
  let director := match ep.director with | some w => jsToLower w | none => ""
  jsIncludes title filterText || jsIncludes doctor filterText ||
    jsIncludes companion filterText || jsIncludes writer filterText ||
    jsIncludes director filterText

/-- A sortable JS value produced by `getSortValue`: a string or a number. -/
inductive SortKey where
  | str (s : String)
  | num (n : Int)
deriving DecidableEq

/-- JS `<` on two sort keys.  For one fixed sort field all keys share one
constructor; the mixed cases (unreachable) are completed to a total order. -/
def keyLt : SortKey → SortKey → Bool
  | .str a, .str b => decide (a < b)
  | .num a, .num b => decide (a < b)
  | .str _, .num _ => true
  | .num _, .str _ => false

/-- The three-way comparison `valA < valB ? -1 : valA > valB ? 1 : 0`. -/
def keyCmp (x y : SortKey) : Int := if keyLt x y then -1 else if keyLt y x then 1 else 0

/-- A raw JS field value as read by the dynamic lookup `ep[field]`. -/
inductive JField where
  | undefined
  | str (s : String)
  | num (n : Int)
deriving DecidableEq

/-- Lift an optional string field to a `JField`. -/
def optStr : Option String → JField
  | none => .undefined
  | some s => .str s

/-- The dynamic lookup `ep[field]` for the scalar fields that can reach the
`default` branch of `getSortValue` (the object-valued fields are caught by
the `switch` first; an unknown field is `undefined`). -/
def epField (ep : Episode) (field : String) : JField :=
  if field = "rank" then
    match ep.rank with
    | none => .undefined
    | some (.num n) => .num n
    | some (.str s) => .str s
  else if field = "title" then optStr ep.title
  else if field = "series" then
    match ep.series with
    | none => .undefined
    | some n => .num n
  else if field = "era" then optStr ep.era
  else if field = "broadcast_date" then optStr ep.broadcast_date
  else if field = "director" then optStr ep.director
  else if field = "writer" then optStr ep.writer
  else .undefined

/-- `(v || '').toString()`: a falsy value (`undefined`, `""`, `0`) becomes the
empty string, otherwise the value is coerced to its string form. -/
def jsOrEmpty : JField → String
  | .undefined => ""
  | .str s => s
  | .num n => if n = 0 then "" else toString n

/-- `getSortValue(ep, field)`, the sort-key extractor. -/
def getSortValue (parse : String → JsDate) (ep : Episode) (field : String) : SortKey :=
  if field = "doctor" then .str (jsToLower (formatDoctor ep.doctor false))
  else if field = "companion" then .str (jsToLower (formatCompanion ep.companion false))
  else if field = "cast_count" then .num (Int.ofNat (ep.cast.getD 0))
  else if field = "broadcast_date" then
    -- `normalizeDate(..)?.getTime() || 0`: `null` and `Invalid Date` (whose
    -- `getTime()` is `NaN`) give `0`; a valid epoch value of `0` also stays `0`.
    .num (match normalizeDate parse ep.broadcast_date with
          | some (.valid ms) => if ms = 0 then 0 else ms
          | _ => 0)
  else .str (jsToLower (jsOrEmpty (epField ep field)))

/-- The comparator passed to `Array.prototype.sort`:
`(valA < valB ? -1 : valA > valB ? 1 : 0) * direction`. -/
def jsCompare (parse : String → JsDate) (field : String) (ascending : Bool)
    (a b : Episode) : Int :=
  keyCmp (getSortValue parse a field) (getSortValue parse b field) *
    (if ascending then 1 else -1)

/-- The pure core of `applyFiltersAndSort`: lowercase the filter input, keep
the matching episodes, and stable-sort them with the comparator
(`Array.prototype.sort` is required to be stable). -/
def applyFiltersAndSort (parse : String → JsDate) (episodes : List Episode)
    (filterName : String) (field : String) (ascending : Bool) : List Episode :=
  let filterText := jsToLower filterName
  let processed := episodes.filter (fun ep => matchesFilter ep filterText)
  processed.mergeSort (fun a b => decide (jsCompare parse field ascending a b ≤ 0))

/-- The `id` string built for each validated record:
`` `Episode "${episode.title || `(Untitled at index ${index}`})"` ``.
The inner template stops before its closing parenthesis, so the outer
literal's suffix is `)"`: a present title "B" gives `Episode "B)"` and an
absent title at index 3 gives `Episode "(Untitled at index 3)"`. -/
def episodeId (ep : Episode) (index : Nat) : String :=
  "Episode \"" ++ truthyOr ep.title ("(Untitled at index " ++ toString index) ++ ")\""

/-- `episode[field] == null || episode[field] === ''` for a string field. -/
def missingStr (o : Option String) : Bool :=
  match o with
  | none => true
  | some s => s = ""

/-- The missing-field test applied to `rank` (a rank that is the empty string
satisfies `=== ''`; a numeric rank never does). -/
def rankMissing (r : Option RankVal) : Bool :=
  match r with
  | none => true
  | some (.num _) => false
  | some (.str s) => s = ""

/-- String form of a rank, as interpolated into the duplicate warning. -/
def rankStr : RankVal → String
  | .num n => toString n
  | .str s => s

/-- The warnings `validateData` pushes for one record, in rule order: missing
required fields (`rank`, `title`, `era`, `broadcast_date`), future broadcast
date, invalid/duplicate rank, negative series.  `seenRanks` is the set of
ranks recorded before this record; `now` is the current epoch value. -/
def recordWarnings (parse : String → JsDate) (now : Int) (ep : Episode)
    (index : Nat) (seenRanks : List Int) : List String :=
  let id := episodeId ep index
  let missing :=
    (if rankMissing ep.rank then
      ["Validation Error: " ++ id ++ " is missing required field 'rank'."] else []) ++
    (if missingStr ep.title then
      ["Validation Error: " ++ id ++ " is missing required field 'title'."] else []) ++
    (if missingStr ep.era then
      ["Validation Error: " ++ id ++ " is missing required field 'era'."] else []) ++
    (if missingStr ep.broadcast_date then
      ["Validation Error: " ++ id ++ " is missing required field 'broadcast_date'."] else [])
  let future :=
    -- `date && date > now`: `null` is falsy, and `Invalid Date` (truthy)
    -- compares through its `NaN` time value, so only a valid date can warn.
    match normalizeDate parse ep.broadcast_date with
    | some (.valid ms) =>
      if now < ms then ["Validation Error: " ++ id ++ " has a future broadcast date."] else []
    | _ => []
  let rankW :=
    match ep.rank with
    | some (.num n) =>
      if n ∈ seenRanks then
        ["Validation Error: Duplicate rank '" ++ toString n ++ "' found on " ++ id ++ "."]
      else []
    | _ => ["Validation Error: " ++ id ++ " has an invalid (non-numeric) rank."]
  let seriesW :=
    match ep.series with
    | some n => if n < 0 then ["Validation Error: " ++ id ++ " has a negative series number."] else []
    | none => []
  missing ++ future ++ rankW ++ seriesW

/-- `seenRanks.add(episode.rank)` performed only on the not-seen branch. -/
def updateSeen (ep : Episode) (seenRanks : List Int) : List Int :=
  match ep.rank with
  | some (.num n) => if n ∈ seenRanks then seenRanks else n :: seenRanks
  | _ => seenRanks

/-- The `episodes.forEach` loop of `validateData`, threading the record index
and the `seenRanks` set. -/
def validateGo (parse : String → JsDate) (now : Int) :
    List Episode → Nat → List Int → List String
  | [], _, _ => []
  | ep :: rest, index, seenRanks =>
    recordWarnings parse now ep index seenRanks ++
      validateGo parse now rest (index + 1) (updateSeen ep seenRanks)

/-- `validateData(episodes)`: the ordered warning list. -/
def validateData (parse : String → JsDate) (now : Int) (episodes : List Episode) : List String :=
  validateGo parse now episodes 0 []

/-- The finite numeric ranks of a record list, in order. -/
def finiteRanks (episodes : List Episode) : List Int :=
  episodes.filterMap (fun ep =>
    match ep.rank with
    | some (.num n) => some n
    | _ => none)

/-- Stateless restatement of the validator, following the spec's words: each
record contributes its warnings in record order, and the duplicate-rank test
for a record consults exactly the finite numeric ranks of the *earlier*
records (`pre`). -/
def validatorSpec (parse : String → JsDate) (now : Int) :
    List Episode → Nat → List Episode → List String
  | [], _, _ => []
  | ep :: rest, index, pre =>
    recordWarnings parse now ep index (finiteRanks pre) ++
      validatorSpec parse now rest (index + 1) (pre ++ [ep])

/-- `s.data.any` test of the regex `/[",\n]/`. -/
def hasCSVSpecial (s : String) : Bool :=
  s.data.any (fun c => c == '"' || c == ',' || c == '\n')

/-- `replace(/"/g, '""')` at the character level. -/
def doubleQuotes : List Char → List Char
  | [] => []
  | c :: cs => if c = '"' then '"' :: '"' :: doubleQuotes cs else c :: doubleQuotes cs

/-- `escapeCSV(value)`; the argument is the string form of the value, `none`
standing for `null`/`undefined` (mapped to `""` by `value ?? ''`). -/
def escapeCSV (value : Option String) : String :=
  let stringValue := value.getD ""
  if hasCSVSpecial stringValue then
    "\"" ++ String.mk (doubleQuotes stringValue.data) ++ "\""
  else stringValue

/-- Inverse of the quote doubling: every `""` pair collapses to `"`. -/
def undoubleQuotes : List Char → List Char
  | [] => []
  | [c] => [c]
  | a :: b :: cs =>
    if a = '"' && b = '"' then '"' :: undoubleQuotes cs
    else a :: undoubleQuotes (b :: cs)

/-- RFC 4180 un-escaping: strip a surrounding quote pair and collapse doubled
quotes; anything not quote-wrapped is returned unchanged. -/
def unescapeCSV (s : String) : String :=
  if 2 ≤ s.data.length ∧ s.data.head? = some '"' ∧ s.data.getLast? = some '"' then
    String.mk (undoubleQuotes (s.data.drop 1).dropLast)
  else s

/-- One row of `exportToCSV` before escaping: the raw JS values of
`[rank, title, series, era, year, director, writer, doctor, companion,
castCount]`, each as the string `String(value)` with `none` for
`undefined`. -/
def exportRowRaw (parse : String → JsDate) (ep : Episode) : List (Option String) :=
  [ ep.rank.map rankStr,
    ep.title,
    ep.series.map (fun n => toString n),
    ep.era,
    some (getYear parse ep.broadcast_date),
    ep.director,
    ep.writer,
    some (formatDoctor ep.doctor true),
    some (formatCompanion ep.companion true),
    some (toString (ep.cast.getD 0)) ]

/-- One escaped CSV row. -/
def exportRow (parse : String → JsDate) (ep : Episode) : List String :=
  (exportRowRaw parse ep).map escapeCSV

/-- The fixed CSV header row. -/
def csvHeaders : List String :=
  ["Rank", "Title", "Series", "Era", "Year", "Director", "Writer", "Doctor",
   "Companion", "Cast Count"]

/-- The full CSV text produced by `exportToCSV` from the visible sequence. -/
def exportToCSV (parse : String → JsDate) (filtered : List Episode) : String :=
  String.intercalate "\n"
    (String.intercalate "," (csvHeaders.map (fun h => escapeCSV (some h))) ::
      filtered.map (fun ep => String.intercalate "," (exportRow parse ep)))

/-- `createCell`'s text for one value: `text ?? 'N/A'`. -/
def displayCell (t : Option String) : String := t.getD "N/A"

/-- The ten cell texts of one rendered table row. -/
def displayRow (parse : String → JsDate) (ep : Episode) : List String :=
  [ displayCell (ep.rank.map rankStr),
    displayCell ep.title,
    displayCell (ep.series.map (fun n => toString n)),
    displayCell ep.era,
    displayCell (some (getYear parse ep.broadcast_date)),
    displayCell ep.director,
    displayCell ep.writer,
    displayCell (some (formatDoctor ep.doctor true)),
    displayCell (some (formatCompanion ep.companion true)),
    displayCell (some (toString (ep.cast.getD 0))) ]

/-- The mutable application state (`state` in the script). -/
structure AppState where
  episodes : List Episode
  filterName : String
  sortField : String
  sortAscending : Bool
  filtered : List Episode
  focusedRowIndex : Int
deriving DecidableEq

/-- The initial `state` object. -/
def initialState : AppState :=
  { episodes := [], filterName := "", sortField := "rank", sortAscending := true,
    filtered := [], focusedRowIndex := -1 }

/-- The stateful `applyFiltersAndSort()`: reset the focus index and recompute
the derived visible sequence. -/
def applyToState (parse : String → JsDate) (s : AppState) : AppState :=
  { s with focusedRowIndex := -1,
           filtered := applyFiltersAndSort parse s.episodes s.filterName
             s.sortField s.sortAscending }

/-- The user-interaction events wired up by `setupEventListeners` and
`handleKeyboardNavigation` (an Enter keypress on a focused header is
delivered as the same `headerClick`), plus the dataset commit of a
successful load. -/
inductive UIEvent where
  | filterInput (text : String)
  | headerClick (field : String)
  | arrowUp
  | arrowDown
  | rowClick (index : Nat)
  | load (episodes : List Episode)

/-- The event handlers: filter input and header clicks update the view state
and recompute; arrow keys clamp the focus index into `[0, numRows-1]` and do
nothing when no row is visible; a row click focuses that row. -/
def stepEvent (parse : String → JsDate) (s : AppState) : UIEvent → AppState
  | .filterInput t => applyToState parse { s with filterName := t }
  | .headerClick g =>
    if s.sortField = g then applyToState parse { s with sortAscending := !s.sortAscending }
    else applyToState parse { s with sortField := g, sortAscending := true }
  | .arrowUp =>
    if s.filtered.length = 0 then s
    else
      { s with
        focusedRowIndex :=
          max 0 (min ((s.filtered.length : Int) - 1) (s.focusedRowIndex + (-1))) }
  | .arrowDown =>
    if s.filtered.length = 0 then s
    else
      { s with
        focusedRowIndex :=
          max 0 (min ((s.filtered.length : Int) - 1) (s.focusedRowIndex + 1)) }
  | .rowClick i => { s with focusedRowIndex := (i : Int) }
  | .load eps => applyToState parse { s with episodes := eps }

/-- The focus-index invariant: always within `[-1, len-1]` of the derived
visible sequence. -/
def focusInv (s : AppState) : Prop :=
  -1 ≤ s.focusedRowIndex ∧ s.focusedRowIndex ≤ (s.filtered.length : Int) - 1

/-- Environment guarantee on delivered events: a row click can only come from
one of the rendered rows. -/
def eventOk (s : AppState) : UIEvent → Prop
  | .rowClick i => i < s.filtered.length
  | _ => True

/-- One fetched response as `loadEpisodes` consumes it: its `ok` flag, `url`
and `statusText`, and the outcome of `res.json()` followed by the `.episodes`
access (`error` covers both malformed JSON and a missing array, either of
which throws into the same `catch`). -/
structure Response where
  ok : Bool
  url : String
  statusText : String
  json : Except String (List Episode)

/-- The per-response projection that discards the parsed body. -/
def stripJson (r : Response) : Bool × String × String := (r.ok, r.url, r.statusText)

/-- The user-facing error text assembled by `showError`. -/
def userErrorText (details : String) : String :=
  "Error: Could not load episodes. Please check your network connection and try again.\nDetails: " ++ details

/-- The message of the error thrown for the first not-ok response. -/
def fetchFailureMsg (r : Response) : String :=
  "Network fetch failure from " ++ r.url ++ " (" ++ r.statusText ++ ")"

/-- The UI-visible outcome of one `loadEpisodes()` run. -/
structure LoadOutcome where
  loadingVisible : Bool
  tableVisible : Bool
  errorText : Option String
  warningsBanner : Option String
  episodes : List Episode
  filtered : List Episode
deriving DecidableEq

/-- The `try` body of `loadEpisodes`: check every response's `ok` flag (in
order, before any body is parsed), then parse all bodies (`Promise.all`
fails with the first rejection), flatten the `episodes` arrays, and run the
validator for the warning banner. -/
def loadBody (parse : String → JsDate) (now : Int)
    (fetched : Except String (List Response)) :
    Except String (List Episode × Option String) :=
  match fetched with
  | .error e => .error e
  | .ok responses =>
    match responses.find? (fun r => !r.ok) with
    | some r => .error (fetchFailureMsg r)
    | none =>
      match responses.mapM (fun r => r.json) with
      | .error e => .error e
      | .ok dataArr =>
        let allEpisodes := dataArr.flatten
        let warnings := validateData parse now allEpisodes
        .ok (allEpisodes,
          if warnings.length > 0 then
            some ("Found " ++ toString warnings.length ++
              " data quality warning(s). See console for details.")
          else none)

/-- `loadEpisodes()`: `fetched` is the settled `Promise.all` of the fetches
(`error` = a network-level rejection).  On failure `showError` runs, and on
every path the `finally` block runs `showLoading(false)` — which clears the
loading indicator and, as a side effect, re-shows the table even after
`showError` hid it. -/
def loadEpisodes (parse : String → JsDate) (now : Int)
    (fetched : Except String (List Response)) : LoadOutcome :=
  match loadBody parse now fetched with
  | .ok (eps, banner) =>
    { loadingVisible := false, tableVisible := true, errorText := none,
      warningsBanner := banner, episodes := eps,
      filtered := applyFiltersAndSort parse eps "" "rank" true }
  | .error details =>
    { loadingVisible := false, tableVisible := true,
      errorText := some (userErrorText details), warningsBanner := none,
      episodes := [], filtered := [] }

/-! ### General-purpose lemmas about the embedding's helpers -/

theorem jsToLower_eq_empty_iff (s : String) : jsToLower s = "" ↔ s = "" := by
  constructor
  · intro h
    have h2 : s.data.map Char.toLower = ([] : List Char) := congrArg String.data h
    exact String.ext (by simpa using h2)
  · intro h
    subst h
    rfl

theorem toDigitsCore_ne_nil (b : Nat) :
    ∀ (fuel n : Nat) (ds : List Char), ds ≠ [] → Nat.toDigitsCore b fuel n ds ≠ []
  | 0, _, _, h => h
  | fuel + 1, n, ds, _ => by
    simp only [Nat.toDigitsCore]
    split
    · exact List.cons_ne_nil _ _
    · exact toDigitsCore_ne_nil b fuel _ _ (List.cons_ne_nil _ _)

theorem natRepr_ne_empty (n : Nat) : Nat.repr n ≠ "" := by
  have h2 : Nat.toDigits 10 n ≠ [] := by
    unfold Nat.toDigits
    simp only [Nat.toDigitsCore]
    split
    · exact List.cons_ne_nil _ _
    · exact toDigitsCore_ne_nil 10 n _ _ (List.cons_ne_nil _ _)
  intro h
  exact h2 (congrArg String.data h)

theorem intToString_ne_empty (n : Int) : toString n ≠ "" := by
  cases n with
  | ofNat m => exact natRepr_ne_empty m
  | negSucc m =>
    intro h
    have h3 : ("-" ++ toString (Nat.succ m) : String) = toString (Int.negSucc m) := rfl
    rw [← h3] at h
    have h2 : ("-" : String).data ++ (toString (Nat.succ m)).data = [] := by
      simpa using congrArg String.data h
    exact absurd (List.append_eq_nil.mp h2).1 (by decide)

theorem keyLt_asymm : ∀ {x y : SortKey}, keyLt x y = true → keyLt y x = false
  | .str a, .str b, h => by
    simp only [keyLt, decide_eq_true_eq] at h
    simp only [keyLt, decide_eq_false_iff_not]
    exact lt_asymm h
  | .num a, .num b, h => by
    simp only [keyLt, decide_eq_true_eq] at h
    simp only [keyLt, decide_eq_false_iff_not]
    omega
  | .str _, .num _, _ => rfl
  | .num _, .str _, h => by simp [keyLt] at h

theorem keyLt_irrefl (x : SortKey) : keyLt x x = false := by
  cases x <;> simp [keyLt]

theorem keyLt_notLt_trans {x y z : SortKey} (h1 : keyLt x y = false)
    (h2 : keyLt y z = false) : keyLt x z = false := by
  cases x with
  | str a =>
    cases y with
    | str b =>
      cases z with
      | str c =>
        simp only [keyLt, decide_eq_false_iff_not] at h1 h2 ⊢
        exact not_lt.mpr (le_trans (not_lt.mp h2) (not_lt.mp h1))
      | num c => simp [keyLt] at h2
    | num b => simp [keyLt] at h1
  | num a =>
    cases y with
    | str b =>
      cases z with
      | str c => rfl
      | num c => simp [keyLt] at h2
    | num b =>
      cases z with
      | str c => rfl
      | num c =>
        simp only [keyLt, decide_eq_false_iff_not] at h1 h2 ⊢
        omega

theorem keyLt_total (x y : SortKey) : keyLt x y = false ∨ keyLt y x = false := by
  by_cases h : keyLt x y = true
  · exact Or.inr (keyLt_asymm h)
  · exact Or.inl (by simpa using h)

theorem keyCmp_nonpos {x y : SortKey} : keyCmp x y ≤ 0 ↔ keyLt y x = false := by
  unfold keyCmp
  by_cases h1 : keyLt x y = true
  · simp [h1, keyLt_asymm h1]
  · have h1' : keyLt x y = false := by simpa using h1
    by_cases h2 : keyLt y x = true
    · simp [h1', h2]
    · have h2' : keyLt y x = false := by simpa using h2
      simp [h1', h2']

theorem keyCmp_nonneg {x y : SortKey} : 0 ≤ keyCmp x y ↔ keyLt x y = false := by
  unfold keyCmp
  by_cases h1 : keyLt x y = true
  · simp [h1, keyLt_asymm h1]
  · have h1' : keyLt x y = false := by simpa using h1
    by_cases h2 : keyLt y x = true
    · simp [h1', h2]
    · have h2' : keyLt y x = false := by simpa using h2
      simp [h1', h2']

theorem jsCompare_nonpos_asc (p : String → JsDate) (f : String) {a b : Episode} :
    jsCompare p f true a b ≤ 0 ↔
      keyLt (getSortValue p b f) (getSortValue p a f) = false := by
  unfold jsCompare
  simpa using keyCmp_nonpos

theorem jsCompare_nonpos_desc (p : String → JsDate) (f : String) {a b : Episode} :
    jsCompare p f false a b ≤ 0 ↔
      keyLt (getSortValue p a f) (getSortValue p b f) = false := by
  unfold jsCompare
  have hmul : ∀ t : Int, t * (if (false : Bool) then 1 else -1) ≤ 0 ↔ 0 ≤ t := by
    intro t
    simp only [Bool.false_eq_true, if_false]
    omega
  rw [hmul]
  exact keyCmp_nonneg

theorem sortLe_trans (p : String → JsDate) (f : String) (asc : Bool)
    (a b c : Episode)
    (h1 : decide (jsCompare p f asc a b ≤ 0) = true)
    (h2 : decide (jsCompare p f asc b c ≤ 0) = true) :
    decide (jsCompare p f asc a c ≤ 0) = true := by
  rw [decide_eq_true_eq] at h1 h2 ⊢
  cases asc
  · rw [jsCompare_nonpos_desc] at h1 h2 ⊢
    exact keyLt_notLt_trans h1 h2
  · rw [jsCompare_nonpos_asc] at h1 h2 ⊢
    exact keyLt_notLt_trans h2 h1

theorem sortLe_total (p : String → JsDate) (f : String) (asc : Bool)
    (a b : Episode) :
    (decide (jsCompare p f asc a b ≤ 0) || decide (jsCompare p f asc b a ≤ 0)) = true := by
  rw [Bool.or_eq_true, decide_eq_true_eq, decide_eq_true_eq]
  cases asc
  · rw [jsCompare_nonpos_desc, jsCompare_nonpos_desc]
    exact keyLt_total _ _
  · rw [jsCompare_nonpos_asc, jsCompare_nonpos_asc]
    exact (keyLt_total _ _).symm.imp id id

theorem doubleQuotes_eq_nil_iff (l : List Char) : doubleQuotes l = [] ↔ l = [] := by
  cases l with
  | nil => simp [doubleQuotes]
  | cons c cs =>
    simp only [doubleQuotes]
    split <;> simp

theorem undouble_double (l : List Char) : undoubleQuotes (doubleQuotes l) = l := by
  induction l with
  | nil => rfl
  | cons c cs ih =>
    by_cases hc : c = '"'
    · subst hc
      simp only [doubleQuotes, if_pos rfl]
      simp only [undoubleQuotes]
      simp [ih]
    · simp only [doubleQuotes, if_neg hc]
      cases hdq : doubleQuotes cs with
      | nil =>
        have hcs : cs = [] := (doubleQuotes_eq_nil_iff cs).mp hdq
        subst hcs
        simp [undoubleQuotes]
      | cons x xs =>
        have h2 : undoubleQuotes (c :: x :: xs) = c :: undoubleQuotes (x :: xs) := by
          simp [undoubleQuotes, hc]
        rw [h2, ← hdq, ih]

theorem unescape_escape_special {s : String} (h : hasCSVSpecial s = true) :
    unescapeCSV (escapeCSV (some s)) = s := by
  have hesc : escapeCSV (some s) = "\"" ++ String.mk (doubleQuotes s.data) ++ "\"" := by
    simp [escapeCSV, h]
  have hdata : (escapeCSV (some s)).data = '"' :: (doubleQuotes s.data ++ ['"']) := by
    rw [hesc]
    simp only [String.data_append]
    rfl
  unfold unescapeCSV
  rw [hdata]
  rw [if_pos]
  · have hdrop : (('"' :: (doubleQuotes s.data ++ ['"'])).drop 1).dropLast
        = doubleQuotes s.data := by
      simp
    rw [hdrop, undouble_double]
  · refine ⟨by simp, rfl, ?_⟩
    rw [show ('"' :: (doubleQuotes s.data ++ ['"'])) = ('"' :: doubleQuotes s.data) ++ ['"'] by simp]
    exact List.getLast?_concat _

/-- **C7.** The CSV escaper maps `null`/`undefined` to `""`, quote-wraps and
doubles embedded quotes exactly when the value contains a comma, a double
quote, or a newline, returns it unchanged otherwise, and RFC 4180
un-escaping inverts it on any string containing all three special
characters. -/
theorem escapeCSV_rfc4180 :
    escapeCSV none = "" ∧
    (∀ s : String, hasCSVSpecial s = false → escapeCSV (some s) = s) ∧
    (∀ s : String, hasCSVSpecial s = true →
      escapeCSV (some s) = "\"" ++ String.mk (doubleQuotes s.data) ++ "\"") ∧
    (∀ s : String, ',' ∈ s.data → '"' ∈ s.data → '\n' ∈ s.data →
      unescapeCSV (escapeCSV (some s)) = s) := by
  refine ⟨rfl, ?_, ?_, ?_⟩
  · intro s h
    simp [escapeCSV, h]
  · intro s h
    simp [escapeCSV, h]
  · intro s h1 _ _
    apply unescape_escape_special
    unfold hasCSVSpecial
    rw [List.any_eq_true]
    exact ⟨',', h1, by decide⟩

/-- **C7 witness.** A value without special characters passes through
unchanged, and the comma-quote-newline round trip is exact. -/
theorem escapeCSV_rfc4180_witness :
    escapeCSV (some "plain text") = "plain text" ∧
    unescapeCSV (escapeCSV (some "a,\"\nb")) = "a,\"\nb" :=
  ⟨escapeCSV_rfc4180.2.1 "plain text" (by decide),
   escapeCSV_rfc4180.2.2.2 "a,\"\nb" (by decide) (by decide) (by decide)⟩

/-- **C10.** A present-but-empty `actor` field is formatted `"N/A"`, exactly
like an absent actor or an absent object; consequently filtering, sorting,
export and display each give identical results on an episode whose doctor or
companion has an empty-string actor and on the same episode with that object
absent. -/
theorem formatters_empty_actor_c10 :
    (∀ (inc : Option String) (b : Bool),
      formatDoctor (some { actor := some "", incarnation := inc }) b = "N/A" ∧
      formatDoctor (some { actor := none, incarnation := inc }) b = "N/A" ∧
      formatDoctor (some { actor := some "", incarnation := inc }) b = formatDoctor none b) ∧
    (∀ (ch : Option String) (b : Bool),
      formatCompanion (some { actor := some "", character := ch }) b = "N/A" ∧
      formatCompanion (some { actor := none, character := ch }) b = "N/A" ∧
      formatCompanion (some { actor := some "", character := ch }) b = formatCompanion none b) ∧
    (∀ (parse : String → JsDate) (ep : Episode) (inc : Option String) (f fld : String),
      ep.doctor = some { actor := some "", incarnation := inc } →
        matchesFilter ep f = matchesFilter { ep with doctor := none } f ∧
        getSortValue parse ep fld = getSortValue parse { ep with doctor := none } fld ∧
        exportRow parse ep = exportRow parse { ep with doctor := none } ∧
        displayRow parse ep = displayRow parse { ep with doctor := none }) ∧
    (∀ (parse : String → JsDate) (ep : Episode) (ch : Option String) (f fld : String),
      ep.companion = some { actor := some "", character := ch } →
        matchesFilter ep f = matchesFilter { ep with companion := none } f ∧
        getSortValue parse ep fld = getSortValue parse { ep with companion := none } fld ∧
        exportRow parse ep = exportRow parse { ep with companion := none } ∧
        displayRow parse ep = displayRow parse { ep with companion := none }) := by
  refine ⟨fun inc b => ⟨rfl, rfl, rfl⟩, fun ch b => ⟨rfl, rfl, rfl⟩, ?_, ?_⟩
  · intro parse ep inc f fld h
    cases ep
    dsimp only at h ⊢
    subst h
    refine ⟨?_, ?_, ?_, ?_⟩
    · simp [matchesFilter, formatDoctor]
    · unfold getSortValue
      split_ifs <;> simp [formatDoctor, epField]
    · simp [exportRow, exportRowRaw, formatDoctor]
    · simp [displayRow, formatDoctor]
  · intro parse ep ch f fld h
    cases ep
    dsimp only at h ⊢
    subst h
    refine ⟨?_, ?_, ?_, ?_⟩
    · simp [matchesFilter, formatCompanion]
    · unfold getSortValue
      split_ifs <;> simp [formatCompanion, epField]
    · simp [exportRow, exportRowRaw, formatCompanion]
    · simp [displayRow, formatCompanion]

/-- **C10 witness.** The equalities at a concrete episode whose doctor has an
empty-string actor. -/
theorem formatters_empty_actor_c10_witness :
    matchesFilter
        { title := some "The Ark", doctor := some { actor := some "", incarnation := some "First" } }
        "n/a"
      = matchesFilter { title := some "The Ark", doctor := none } "n/a" ∧
    getSortValue jsDateParse
        { title := some "The Ark", doctor := some { actor := some "", incarnation := some "First" } }
        "doctor"
      = getSortValue jsDateParse { title := some "The Ark", doctor := none } "doctor" :=
  ⟨((formatters_empty_actor_c10.2.2.1 jsDateParse
      { title := some "The Ark", doctor := some { actor := some "", incarnation := some "First" } }
      (some "First") "n/a" "doctor") rfl).1,
   ((formatters_empty_actor_c10.2.2.1 jsDateParse
      { title := some "The Ark", doctor := some { actor := some "", incarnation := some "First" } }
      (some "First") "n/a" "doctor") rfl).2.1⟩

theorem occursIn_nil (l : List Char) : occursIn [] l = true := by
  cases l <;> simp [occursIn, startsWithList]

theorem matchesFilter_empty (ep : Episode) : matchesFilter ep "" = true := by
  unfold matchesFilter jsIncludes
  simp only [show ("" : String).data = [] from rfl, occursIn_nil, Bool.true_or]

theorem mem_applyFiltersAndSort (parse : String → JsDate) (eps : List Episode)
    (f fld : String) (asc : Bool) (ep : Episode) :
    ep ∈ applyFiltersAndSort parse eps f fld asc ↔
      ep ∈ eps ∧ matchesFilter ep (jsToLower f) = true := by
  unfold applyFiltersAndSort
  rw [List.mem_mergeSort, List.mem_filter]

/-- Modelled from the spec (§4.4 Filter), for comparison with the code's
predicate: the lowercase filter text must be a substring of title, formatted
doctor (actor-only), formatted companion (actor-only), writer or director,
"each defaulted to empty string when absent". -/
def specFilterMatches (ep : Episode) (lowerFilter : String) : Bool :=
  let title := match ep.title with | some t => jsToLower t | none => ""
  let doctor := match ep.doctor with | some d => jsToLower (formatDoctor (some d) false) | none => ""
  let companion := match ep.companion with | some c => jsToLower (formatCompanion (some c) false) | none => ""
  let writer := match ep.writer with | some w => jsToLower w | none => ""
  let director := match ep.director with | some w => jsToLower w | none => ""
  jsIncludes title lowerFilter || jsIncludes doctor lowerFilter ||
    jsIncludes companion lowerFilter || jsIncludes writer lowerFilter ||
    jsIncludes director lowerFilter

/-- **C1 counterexample.** For the all-absent episode and filter text
`"N/A"`, the code makes the record visible — the absent doctor formats as
`"N/A"`, not the empty string, and contains the filter — while the claim's
predicate (every component empty when the field is absent) rejects it. -/
theorem filter_visibility_c1_cex :
    ({} : Episode) ∈ applyFiltersAndSort jsDateParse [{}] "N/A" "rank" true ∧
    specFilterMatches {} (jsToLower "N/A") = false := by
  constructor
  · rw [mem_applyFiltersAndSort]
    exact ⟨by decide, by decide⟩
  · decide

/-- **C1 (amended).** A record is in the visible sequence iff it is in the
dataset and the lowercased filter text is a substring of at least one of:
the lowercased title, writer or director (each the empty string when
absent), or the lowercased actor-only formatted doctor or companion (each of
which is `"n/a"`, not the empty string, when the object or its actor is
absent or empty); for the empty filter text every record is visible. -/
theorem filter_visibility_c1 :
    (∀ (parse : String → JsDate) (eps : List Episode) (f fld : String)
        (asc : Bool) (ep : Episode),
      ep ∈ applyFiltersAndSort parse eps f fld asc ↔
        ep ∈ eps ∧
          (jsIncludes (match ep.title with | some t => jsToLower t | none => "") (jsToLower f) ||
           jsIncludes (jsToLower (formatDoctor ep.doctor false)) (jsToLower f) ||
           jsIncludes (jsToLower (formatCompanion ep.companion false)) (jsToLower f) ||
           jsIncludes (match ep.writer with | some w => jsToLower w | none => "") (jsToLower f) ||
           jsIncludes (match ep.director with | some w => jsToLower w | none => "") (jsToLower f)) = true) ∧
    (∀ (parse : String → JsDate) (eps : List Episode) (fld : String)
        (asc : Bool) (ep : Episode),
      ep ∈ eps → ep ∈ applyFiltersAndSort parse eps "" fld asc) := by
  constructor
  · intro parse eps f fld asc ep
    rw [mem_applyFiltersAndSort]
    exact Iff.rfl
  · intro parse eps fld asc ep h
    rw [mem_applyFiltersAndSort]
    exact ⟨h, matchesFilter_empty ep⟩

/-- **C1 witness.** With the empty filter text a concrete record stays
visible. -/
theorem filter_visibility_c1_witness :
    ({ title := some "An Unearthly Child" } : Episode) ∈
      applyFiltersAndSort jsDateParse [{ title := some "An Unearthly Child" }] "" "rank" true :=
  filter_visibility_c1.2 jsDateParse _ "rank" true _ (by decide)

theorem jsOrEmpty_eq_empty_iff (jf : JField) :
    jsOrEmpty jf = "" ↔ jf = .undefined ∨ jf = .str "" ∨ jf = .num 0 := by
  cases jf with
  | undefined => simp [jsOrEmpty]
  | str s => simp [jsOrEmpty]
  | num n =>
    by_cases h : n = 0
    · simp [jsOrEmpty, h]
    · simp [jsOrEmpty, h, intToString_ne_empty n]

/-- **C2 counterexample.** The extracted `title` key of an episode whose
title is present but empty is the empty string even though the field is not
absent, refuting "the empty string exactly when the field is absent"
(`(ep[field] || '')` also blanks any present falsy value). -/
theorem getSortValue_c2_cex :
    getSortValue jsDateParse { title := some "" } "title" = .str "" ∧
    ({ title := some "" } : Episode).title ≠ none := by
  exact ⟨by decide, by decide⟩

/-- **C2 (amended).** Sort-key extraction: `doctor`/`companion` give the
case-folded actor-only formatted string; `cast_count` gives the cast length
(`0` when absent); `broadcast_date` gives the normalized date's epoch value
(`0` when `null` or an invalid date); every other field gives the raw value
coerced to a case-folded string, which is empty exactly when the field is
absent **or** its value is falsy (the empty string or the number `0`). -/
theorem getSortValue_c2 :
    ∀ (parse : String → JsDate) (ep : Episode),
      getSortValue parse ep "doctor" = .str (jsToLower (formatDoctor ep.doctor false)) ∧
      getSortValue parse ep "companion" = .str (jsToLower (formatCompanion ep.companion false)) ∧
      getSortValue parse ep "cast_count" = .num (Int.ofNat (ep.cast.getD 0)) ∧
      (ep.cast = none → getSortValue parse ep "cast_count" = .num 0) ∧
      (∀ ms : Int, normalizeDate parse ep.broadcast_date = some (.valid ms) →
        getSortValue parse ep "broadcast_date" = .num (if ms = 0 then 0 else ms)) ∧
      (normalizeDate parse ep.broadcast_date = none ∨
          normalizeDate parse ep.broadcast_date = some .invalid →
        getSortValue parse ep "broadcast_date" = .num 0) ∧
      (∀ field : String, field ≠ "doctor" → field ≠ "companion" →
          field ≠ "cast_count" → field ≠ "broadcast_date" →
        getSortValue parse ep field = .str (jsToLower (jsOrEmpty (epField ep field))) ∧
        (getSortValue parse ep field = .str "" ↔
          epField ep field = .undefined ∨ epField ep field = .str "" ∨
            epField ep field = .num 0)) := by
  intro parse ep
  refine ⟨rfl, rfl, rfl, ?_, ?_, ?_, ?_⟩
  · intro h
    simp [getSortValue, h]
  · intro ms h
    simp [getSortValue, h]
  · intro h
    rcases h with h | h <;> simp [getSortValue, h]
  · intro field h1 h2 h3 h4
    have hdef : getSortValue parse ep field = .str (jsToLower (jsOrEmpty (epField ep field))) := by
      simp [getSortValue, h1, h2, h3, h4]
    refine ⟨hdef, ?_⟩
    rw [hdef]
    simp only [SortKey.str.injEq]
    rw [jsToLower_eq_empty_iff]
    exact jsOrEmpty_eq_empty_iff _

/-- **C2 witness.** The amended characterisation evaluated at concrete
records: an absent cast gives key `0`, and the `era` key of a present
non-empty era is its case-folded string (and is not empty). -/
theorem getSortValue_c2_witness :
    getSortValue jsDateParse {} "cast_count" = .num 0 ∧
    getSortValue jsDateParse { era := some "Classic" } "era"
      = .str (jsToLower (jsOrEmpty (epField { era := some "Classic" } "era"))) :=
  ⟨(getSortValue_c2 jsDateParse {}).2.2.2.1 rfl,
   ((getSortValue_c2 jsDateParse { era := some "Classic" }).2.2.2.2.2.2 "era"
      (by decide) (by decide) (by decide) (by decide)).1⟩

/-- **C3.** The sort is stable — two visible records with equal extracted
keys keep their relative order from the filtered input — and the comparator
is the three-way key comparison, sign-flipped exactly for descending. -/
theorem sort_stable_c3 :
    (∀ (parse : String → JsDate) (eps : List Episode) (f fld : String)
        (asc : Bool) (a b : Episode),
      getSortValue parse a fld = getSortValue parse b fld →
      [a, b].Sublist (eps.filter (fun ep => matchesFilter ep (jsToLower f))) →
      [a, b].Sublist (applyFiltersAndSort parse eps f fld asc)) ∧
    (∀ (parse : String → JsDate) (fld : String) (a b : Episode),
      jsCompare parse fld true a b
        = keyCmp (getSortValue parse a fld) (getSortValue parse b fld) ∧
      jsCompare parse fld false a b
        = -keyCmp (getSortValue parse a fld) (getSortValue parse b fld)) := by
  constructor
  · intro parse eps f fld asc a b hkey hsub
    have hab : decide (jsCompare parse fld asc a b ≤ 0) = true := by
      rw [decide_eq_true_eq]
      unfold jsCompare
      rw [hkey]
      have hz : keyCmp (getSortValue parse b fld) (getSortValue parse b fld) = 0 := by
        unfold keyCmp
        rw [keyLt_irrefl]
        simp
      rw [hz]
      simp
    simp only [applyFiltersAndSort]
    exact List.pair_sublist_mergeSort (sortLe_trans parse fld asc)
      (sortLe_total parse fld asc) hab hsub
  · intro parse fld a b
    constructor
    · unfold jsCompare
      simp
    · unfold jsCompare
      simp

/-- **C3 witness.** Two equal-key records keep their order through a
concrete sort. -/
theorem sort_stable_c3_witness :
    [({ title := some "Alpha", era := some "X" } : Episode),
     { title := some "Alpha", era := some "Y" }].Sublist
      (applyFiltersAndSort jsDateParse
        [{ title := some "Alpha", era := some "X" },
         { title := some "Alpha", era := some "Y" }] "" "title" true) :=
  sort_stable_c3.1 jsDateParse _ "" "title" true _ _ (by decide) (by decide)

/-- **C4.** Activating the header of field `G` flips the direction when `G`
is the active sort field and otherwise selects `G` ascending; two successive
activations of the active header leave the visible sequence exactly as
before, and activating a different header always yields that field's
ascending ordering. -/
theorem header_toggle_c4 :
    (∀ (parse : String → JsDate) (s : AppState) (g : String),
      if s.sortField = g then
        (stepEvent parse s (.headerClick g)).sortField = s.sortField ∧
          (stepEvent parse s (.headerClick g)).sortAscending = !s.sortAscending
      else
        (stepEvent parse s (.headerClick g)).sortField = g ∧
          (stepEvent parse s (.headerClick g)).sortAscending = true) ∧
    (∀ (parse : String → JsDate) (s : AppState),
      s.filtered = applyFiltersAndSort parse s.episodes s.filterName s.sortField s.sortAscending →
      (stepEvent parse (stepEvent parse s (.headerClick s.sortField))
          (.headerClick s.sortField)).filtered = s.filtered) ∧
    (∀ (parse : String → JsDate) (s : AppState) (g : String), s.sortField ≠ g →
      (stepEvent parse s (.headerClick g)).sortField = g ∧
      (stepEvent parse s (.headerClick g)).sortAscending = true ∧
      List.Pairwise (fun a b => jsCompare parse g true a b ≤ 0)
        (stepEvent parse s (.headerClick g)).filtered) := by
  refine ⟨?_, ?_, ?_⟩
  · intro parse s g
    by_cases h : s.sortField = g <;> simp [stepEvent, h, applyToState]
  · intro parse s hf
    have hstep : (stepEvent parse (stepEvent parse s (.headerClick s.sortField))
        (.headerClick s.sortField)).filtered
        = applyFiltersAndSort parse s.episodes s.filterName s.sortField (!(!s.sortAscending)) := by
      simp [stepEvent, applyToState]
    rw [hstep, Bool.not_not]
    exact hf.symm
  · intro parse s g h
    refine ⟨by simp [stepEvent, h, applyToState], by simp [stepEvent, h, applyToState], ?_⟩
    have hs : (stepEvent parse s (.headerClick g)).filtered
        = (s.episodes.filter (fun ep => matchesFilter ep (jsToLower s.filterName))).mergeSort
            (fun a b => decide (jsCompare parse g true a b ≤ 0)) := by
      simp [stepEvent, h, applyToState, applyFiltersAndSort]
    rw [hs]
    have hp := List.sorted_mergeSort (sortLe_trans parse g true) (sortLe_total parse g true)
      (s.episodes.filter (fun ep => matchesFilter ep (jsToLower s.filterName)))
    exact hp.imp (fun hab => decide_eq_true_eq.mp hab)

/-- **C4 witness.** The toggle laws at the initial state. -/
theorem header_toggle_c4_witness :
    (stepEvent jsDateParse (stepEvent jsDateParse initialState (.headerClick "rank"))
        (.headerClick "rank")).filtered = initialState.filtered ∧
    (stepEvent jsDateParse initialState (.headerClick "title")).sortAscending = true :=
  ⟨header_toggle_c4.2.1 jsDateParse initialState (by simp [initialState, applyFiltersAndSort]),
   (header_toggle_c4.2.2 jsDateParse initialState "title" (by decide)).2.1⟩

/-- Epoch milliseconds of midnight, January 1 of (proleptic Gregorian)
year `y`. -/
def janFirstMs (y : Int) : Int := daysFromCivil y 1 1 * 86400000

theorem jsMakeDateMs_jan (y : Int) : jsMakeDateMs y 0 1 = janFirstMs y := by
  have h1 : (y * 12 + 0).fdiv 12 = y := by
    rw [Int.add_zero]
    exact Int.mul_fdiv_cancel y (by norm_num)
  have h2 : (y * 12 + 0).emod 12 = 0 := by
    rw [Int.add_zero]
    exact Int.mul_emod_left y 12
  simp only [jsMakeDateMs, jsMakeDay, janFirstMs, h1, h2]
  norm_num

/-- **C5 counterexample.** `normalizeDate` applied to the four-digit string
`"0099"` yields January 1 of year 1999, not of year 99 (the `Date`
constructor maps integer years 0–99 to 1900–1999); and the malformed
slash-containing string `"a/b"` yields an `Invalid Date` object rather than
`null`. -/
theorem normalizeDate_c5_cex :
    normalizeDate jsDateParse (some "0099") = some (.valid (janFirstMs 1999)) ∧
    janFirstMs 1999 ≠ janFirstMs 99 ∧
    normalizeDate jsDateParse (some "a/b") = some .invalid :=
  ⟨by decide, by decide, by decide⟩

/-- **C5 (amended).** `normalizeDate` returns `null` on missing or empty
input; for an exactly-four-digit string it returns January 1 of
`MakeFullYear(year)` (years 0000–0099 become 1900–1999); a slash-containing
string is split as `DD/MM/YYYY` and fed to the `Date` constructor — the
corresponding date for numeric components, but an `Invalid Date` (never
`null`) when a component is missing or non-numeric; any other string is
delegated to the generic parser, whose failure gives `null` and never an
invalid date.  The function is total, so no exception escapes. -/
theorem normalizeDate_c5 :
    (∀ parse : String → JsDate, normalizeDate parse none = none ∧
      normalizeDate parse (some "") = none) ∧
    (∀ (parse : String → JsDate) (s : String), isFourDigit s = true →
      normalizeDate parse (some s)
        = some (.valid (janFirstMs (makeFullYear (Int.ofNat (digitsToNat s.data)))))) ∧
    (∀ (parse : String → JsDate) (s : String), s ≠ "" → isFourDigit s = false →
        jsIncludes s "/" = true →
      normalizeDate parse (some s)
        = some (newDateYMD ((splitOnChar '/' s.data)[2]?.bind jsToNumber)
            (((splitOnChar '/' s.data)[1]?.bind jsToNumber).map (fun k => k - 1))
            ((splitOnChar '/' s.data)[0]?.bind jsToNumber))) ∧
    (∀ (parse : String → JsDate) (s : String), s ≠ "" → isFourDigit s = false →
        jsIncludes s "/" = false →
      normalizeDate parse (some s)
        = match parse s with
          | .invalid => none
          | .valid ms => some (.valid ms)) ∧
    (∀ (parse : String → JsDate) (s : String), jsIncludes s "/" = false →
      normalizeDate parse (some s) ≠ some .invalid) ∧
    normalizeDate jsDateParse (some "26/03/2005")
      = some (.valid (daysFromCivil 2005 3 26 * 86400000)) := by
  refine ⟨fun parse => ⟨rfl, rfl⟩, ?_, ?_, ?_, ?_, by decide⟩
  · intro parse s h
    have hne : s ≠ "" := by
      intro he
      subst he
      simp [isFourDigit] at h
    simp only [normalizeDate, if_neg hne, h, if_pos, jsMakeDateMs_jan]
  · intro parse s hne hfd hc
    simp [normalizeDate, hne, hfd, hc]
  · intro parse s hne hfd hc
    simp [normalizeDate, hne, hfd, hc]
  · intro parse s hc
    by_cases hne : s = ""
    · subst hne
      simp [normalizeDate]
    · by_cases hfd : isFourDigit s = true
      · simp [normalizeDate, hne, hfd]
      · rw [Bool.not_eq_true] at hfd
        cases hp : parse s <;> simp [normalizeDate, hne, hfd, hc, hp]

/-- **C5 witness.** The four-digit branch at `"1963"` (no year mapping for
years above 99) and the generic branch never producing an invalid date at a
concrete unparseable string. -/
theorem normalizeDate_c5_witness :
    normalizeDate jsDateParse (some "1963")
      = some (.valid (janFirstMs (makeFullYear (Int.ofNat (digitsToNat "1963".data))))) ∧
    normalizeDate jsDateParse (some "hello") ≠ some .invalid :=
  ⟨normalizeDate_c5.2.1 jsDateParse "1963" (by decide),
   normalizeDate_c5.2.2.2.2.1 jsDateParse "hello" (by decide)⟩

theorem recordWarnings_congr (parse : String → JsDate) (now : Int) (ep : Episode)
    (index : Nat) {s1 s2 : List Int} (h : ∀ n, n ∈ s1 ↔ n ∈ s2) :
    recordWarnings parse now ep index s1 = recordWarnings parse now ep index s2 := by
  cases hrank : ep.rank with
  | none => simp [recordWarnings, hrank]
  | some rv =>
    cases rv with
    | num n =>
      by_cases hc : n ∈ s1
      · simp [recordWarnings, hrank, hc, (h n).mp hc]
      · have hc2 : n ∉ s2 := fun hn => hc ((h n).mpr hn)
        simp [recordWarnings, hrank, hc, hc2]
    | str s => simp [recordWarnings, hrank]

theorem mem_updateSeen_iff (ep : Episode) (seen : List Int) (n : Int) :
    n ∈ updateSeen ep seen ↔ n ∈ seen ∨ ep.rank = some (.num n) := by
  cases hrank : ep.rank with
  | none => simp [updateSeen, hrank]
  | some rv =>
    cases rv with
    | num m =>
      by_cases hc : m ∈ seen
      · simp only [updateSeen, hrank, if_pos hc, Option.some.injEq, RankVal.num.injEq]
        constructor
        · exact Or.inl
        · rintro (hn | rfl)
          · exact hn
          · exact hc
      · simp only [updateSeen, hrank, if_neg hc, List.mem_cons, Option.some.injEq,
          RankVal.num.injEq]
        constructor
        · rintro (rfl | hn)
          · exact Or.inr rfl
          · exact Or.inl hn
        · rintro (hn | rfl)
          · exact Or.inr hn
          · exact Or.inl rfl
    | str s => simp [updateSeen, hrank]

theorem mem_finiteRanks_single (ep : Episode) (n : Int) :
    n ∈ finiteRanks [ep] ↔ ep.rank = some (.num n) := by
  cases hrank : ep.rank with
  | none => simp [finiteRanks, hrank]
  | some rv =>
    cases rv with
    | num m => simp [finiteRanks, hrank, eq_comm]
    | str s => simp [finiteRanks, hrank]

theorem validateGo_spec (parse : String → JsDate) (now : Int) :
    ∀ (rest : List Episode) (index : Nat) (seen : List Int) (pre : List Episode),
      (∀ n, n ∈ seen ↔ n ∈ finiteRanks pre) →
      validateGo parse now rest index seen = validatorSpec parse now rest index pre := by
  intro rest
  induction rest with
  | nil => intro index seen pre h; rfl
  | cons ep rest ih =>
    intro index seen pre h
    unfold validateGo validatorSpec
    congr 1
    · exact recordWarnings_congr parse now ep index h
    · apply ih
      intro n
      rw [mem_updateSeen_iff]
      have hfr : finiteRanks (pre ++ [ep]) = finiteRanks pre ++ finiteRanks [ep] := by
        simp [finiteRanks]
      rw [hfr, List.mem_append, mem_finiteRanks_single, h n]

/-- **C6.** The validator equals its stateless restatement: each record
contributes its warnings in record order, each record's warnings follow the
rule order (missing fields, future date, invalid/duplicate rank, negative
series), and a record receives exactly one duplicate-rank warning exactly
when its finite numeric rank already occurs among the earlier records'
finite ranks; concretely, two records sharing rank 5 produce exactly one
duplicate warning, naming the second record. -/
theorem validateData_c6 :
    (∀ (parse : String → JsDate) (now : Int) (episodes : List Episode),
      validateData parse now episodes = validatorSpec parse now episodes 0 []) ∧
    validateData jsDateParse 1700000000000
        [{ rank := some (.num 5), title := some "A", era := some "X",
           broadcast_date := some "2000" },
         { rank := some (.num 5), title := some "B", era := some "X",
           broadcast_date := some "2000" }]
      = ["Validation Error: Duplicate rank '5' found on Episode \"B)\"."] := by
  constructor
  · intro parse now episodes
    exact validateGo_spec parse now episodes 0 [] [] (by simp [finiteRanks])
  · decide

theorem focusInv_applyToState (parse : String → JsDate) (s : AppState) :
    focusInv (applyToState parse s) := by
  simp only [focusInv, applyToState]
  refine ⟨by norm_num, by omega⟩

/-- **C8.** The focus index is always in `[-1, len-1]` of the derived visible
sequence: it starts at `-1`, every event preserves the invariant, every
recomputation (filter input, header activation, load) resets it to `-1`, and
the arrow keys move it by `±1` clamped to `[0, visibleCount-1]`, doing
nothing when no row is visible — in particular moving up from `0` or down
from `visibleCount-1` leaves it unchanged. -/
theorem focus_invariant_c8 :
    focusInv initialState ∧
    (∀ (parse : String → JsDate) (s : AppState) (e : UIEvent),
      focusInv s → eventOk s e → focusInv (stepEvent parse s e)) ∧
    (∀ (parse : String → JsDate) (s : AppState) (t : String),
      (stepEvent parse s (.filterInput t)).focusedRowIndex = -1) ∧
    (∀ (parse : String → JsDate) (s : AppState) (g : String),
      (stepEvent parse s (.headerClick g)).focusedRowIndex = -1) ∧
    (∀ (parse : String → JsDate) (s : AppState) (eps : List Episode),
      (stepEvent parse s (.load eps)).focusedRowIndex = -1) ∧
    (∀ (parse : String → JsDate) (s : AppState), s.filtered.length = 0 →
      stepEvent parse s .arrowUp = s ∧ stepEvent parse s .arrowDown = s) ∧
    (∀ (parse : String → JsDate) (s : AppState), 0 < s.filtered.length →
      (stepEvent parse s .arrowUp).focusedRowIndex
        = max 0 (min ((s.filtered.length : Int) - 1) (s.focusedRowIndex - 1)) ∧
      (stepEvent parse s .arrowDown).focusedRowIndex
        = max 0 (min ((s.filtered.length : Int) - 1) (s.focusedRowIndex + 1))) ∧
    (∀ (parse : String → JsDate) (s : AppState), s.focusedRowIndex = 0 →
      (stepEvent parse s .arrowUp).focusedRowIndex = 0) ∧
    (∀ (parse : String → JsDate) (s : AppState),
      s.focusedRowIndex = (s.filtered.length : Int) - 1 →
      (stepEvent parse s .arrowDown).focusedRowIndex = s.focusedRowIndex) := by
  refine ⟨⟨by decide, by decide⟩, ?_, ?_, ?_, ?_, ?_, ?_, ?_, ?_⟩
  · intro parse s e hinv hok
    cases e with
    | filterInput t => exact focusInv_applyToState parse _
    | headerClick g =>
      by_cases h : s.sortField = g
      · simp only [stepEvent, if_pos h]
        exact focusInv_applyToState parse _
      · simp only [stepEvent, if_neg h]
        exact focusInv_applyToState parse _
    | load eps => exact focusInv_applyToState parse _
    | arrowUp =>
      by_cases h : s.filtered.length = 0
      · simpa [stepEvent, h] using hinv
      · unfold focusInv at hinv ⊢
        simp only [stepEvent, if_neg h]
        refine ⟨?_, ?_⟩ <;> omega
    | arrowDown =>
      by_cases h : s.filtered.length = 0
      · simpa [stepEvent, h] using hinv
      · unfold focusInv at hinv ⊢
        simp only [stepEvent, if_neg h]
        refine ⟨?_, ?_⟩ <;> omega
    | rowClick i =>
      unfold focusInv at hinv ⊢
      unfold eventOk at hok
      simp only [stepEvent]
      refine ⟨?_, ?_⟩ <;> omega
  · intro parse s t
    simp [stepEvent, applyToState]
  · intro parse s g
    by_cases h : s.sortField = g <;> simp [stepEvent, h, applyToState]
  · intro parse s eps
    simp [stepEvent, applyToState]
  · intro parse s h
    exact ⟨by simp [stepEvent, h], by simp [stepEvent, h]⟩
  · intro parse s h
    have h0 : s.filtered.length ≠ 0 := by omega
    exact ⟨by simp [stepEvent, h0]; try omega, by simp [stepEvent, h0]; try omega⟩
  · intro parse s h
    by_cases h0 : s.filtered.length = 0
    · simp [stepEvent, h0, h]
    · simp only [stepEvent, if_neg h0, h]
      omega
  · intro parse s h
    by_cases h0 : s.filtered.length = 0
    · simp [stepEvent, h0]
    · simp only [stepEvent, if_neg h0, h]
      omega

/-- **C8 witness.** On five visible rows, moving up from index 0 stays at 0
and moving down from index 4 stays at 4. -/
theorem focus_invariant_c8_witness :
    (stepEvent jsDateParse
        { episodes := [], filterName := "", sortField := "rank", sortAscending := true,
          filtered := [{}, {}, {}, {}, {}], focusedRowIndex := 0 } .arrowUp).focusedRowIndex
      = 0 ∧
    (stepEvent jsDateParse
        { episodes := [], filterName := "", sortField := "rank", sortAscending := true,
          filtered := [{}, {}, {}, {}, {}], focusedRowIndex := 4 } .arrowDown).focusedRowIndex
      = 4 :=
  ⟨focus_invariant_c8.2.2.2.2.2.2.2.1 jsDateParse _ rfl,
   focus_invariant_c8.2.2.2.2.2.2.2.2 jsDateParse _ (by decide)⟩

theorem find?_notOk_congr :
    ∀ (rs rs' : List Response),
      rs.map stripJson = rs'.map stripJson →
      (∃ r ∈ rs, r.ok = false) →
      ∃ r r', rs.find? (fun x => !x.ok) = some r ∧
        rs'.find? (fun x => !x.ok) = some r' ∧
        r.url = r'.url ∧ r.statusText = r'.statusText := by
  intro rs
  induction rs with
  | nil =>
    intro rs' _ hex
    rcases hex with ⟨r, hmem, _⟩
    simp at hmem
  | cons a t ih =>
    intro rs' hmap hex
    cases rs' with
    | nil => simp at hmap
    | cons b t' =>
      simp only [List.map_cons, List.cons.injEq] at hmap
      obtain ⟨hab, ht⟩ := hmap
      simp only [stripJson, Prod.mk.injEq] at hab
      by_cases haok : a.ok = true
      · have hex' : ∃ r ∈ t, r.ok = false := by
          rcases hex with ⟨r, hmem, hro⟩
          rcases List.mem_cons.mp hmem with rfl | hmem'
          · exact absurd hro (by simp [haok])
          · exact ⟨r, hmem', hro⟩
        obtain ⟨r, r', hf, hf', hurl, hst⟩ := ih t' ht hex'
        refine ⟨r, r', ?_, ?_, hurl, hst⟩
        · rw [List.find?_cons_of_neg _ (by simp [haok])]
          exact hf
        · rw [List.find?_cons_of_neg _ (by simp [← hab.1, haok])]
          exact hf'
      · have haok' : a.ok = false := by simpa using haok
        refine ⟨a, b, ?_, ?_, hab.2.1, hab.2.2⟩
        · rw [List.find?_cons_of_pos _ (by simp [haok'])]
        · rw [List.find?_cons_of_pos _ (by simp [← hab.1, haok'])]

/-- **C9.** The loading indicator is cleared on every exit path of
`loadEpisodes`; any not-ok response aborts the load with the user-facing
error built from the failing source's URL and status text; and when some
response is not ok the outcome does not depend on any response body — no
JSON parsing takes part in the result. -/
theorem loader_c9 :
    (∀ (parse : String → JsDate) (now : Int) (fetched : Except String (List Response)),
      (loadEpisodes parse now fetched).loadingVisible = false) ∧
    (∀ (parse : String → JsDate) (now : Int) (rs : List Response) (r : Response),
      rs.find? (fun x => !x.ok) = some r →
      loadEpisodes parse now (.ok rs)
        = { loadingVisible := false, tableVisible := true,
            errorText := some (userErrorText (fetchFailureMsg r)),
            warningsBanner := none, episodes := [], filtered := [] }) ∧
    (∀ (parse : String → JsDate) (now : Int) (rs rs' : List Response),
      rs.map stripJson = rs'.map stripJson →
      (∃ r ∈ rs, r.ok = false) →
      loadEpisodes parse now (.ok rs) = loadEpisodes parse now (.ok rs')) := by
  refine ⟨?_, ?_, ?_⟩
  · intro parse now fetched
    unfold loadEpisodes
    cases hlb : loadBody parse now fetched with
    | ok p =>
      obtain ⟨eps, banner⟩ := p
      simp
    | error e => simp
  · intro parse now rs r h
    simp [loadEpisodes, loadBody, h]
  · intro parse now rs rs' hmap hex
    obtain ⟨r, r', hf, hf', hurl, hst⟩ := find?_notOk_congr rs rs' hmap hex
    simp [loadEpisodes, loadBody, hf, hf', fetchFailureMsg, hurl, hst]

/-- **C9 witness.** A concrete 404-style response aborts the load with the
error text naming the source and status, with the loading flag cleared. -/
theorem loader_c9_witness :
    loadEpisodes jsDateParse 0
        (.ok [{ ok := false, url := "https://example.test/a.json",
                statusText := "Not Found", json := .ok [] }])
      = { loadingVisible := false, tableVisible := true,
          errorText := some (userErrorText (fetchFailureMsg
            { ok := false, url := "https://example.test/a.json",
              statusText := "Not Found", json := .ok [] })),
          warningsBanner := none, episodes := [], filtered := [] } :=
  loader_c9.2.1 jsDateParse 0 _ _ rfl
